import Mathlib

/- Formal model of the hunter_game simulation core: src/utils.rs, src/steering.rs,
   src/hare.rs, src/wolf.rs, src/deer.rs, src/player.rs and src/main.rs.

   Finite float arithmetic on the exactly representable values exercised here is
   modelled by rational numbers.  Square roots and trigonometry produce
   irrational values, so steering forces live in a real-valued vector type.  A
   small IEEE-754 carrier captures the non-finite behaviour of vector
   normalisation at the zero vector. -/

/-- Vector with rational components, modelling a glam Vec3 holding exactly
representable finite values. -/
structure Vec3 where
  x : ℚ
  y : ℚ
  z : ℚ
  deriving DecidableEq, Repr

instance : Add Vec3 := ⟨fun a b => ⟨a.x + b.x, a.y + b.y, a.z + b.z⟩⟩

instance : Sub Vec3 := ⟨fun a b => ⟨a.x - b.x, a.y - b.y, a.z - b.z⟩⟩

instance : Zero Vec3 := ⟨⟨0, 0, 0⟩⟩

instance : SMul ℚ Vec3 := ⟨fun c v => ⟨c * v.x, c * v.y, c * v.z⟩⟩

/-- Fixed timestep of the simulation, TIME_STEP in src/main.rs. -/
def TIME_STEP : ℚ := 1 / 60

/-- Squared horizontal distance between two points.  The source function dist
in src/utils.rs returns the square root of this value; every comparison
`dist a b < r` (with 0 ≤ r) made by the source is embedded below as
`distSq a b < r * r`, which is equivalent because the square root is
monotone on nonnegative inputs. -/
def distSq (a b : Vec3) : ℚ :=
  (b.x - a.x) * (b.x - a.x) + (b.y - a.y) * (b.y - a.y)

/-- Determinant denominator of line_line_intersection in src/utils.rs. -/
def lliDen (a1 a2 b1 b2 : Vec3) : ℚ :=
  (a1.x - a2.x) * (b1.y - b2.y) - (a1.y - a2.y) * (b1.x - b2.x)

/-- Parameter t along the first segment, as computed by line_line_intersection. -/
def lliT (a1 a2 b1 b2 : Vec3) : ℚ :=
  ((a1.x - b1.x) * (b1.y - b2.y) - (a1.y - b1.y) * (b1.x - b2.x)) / lliDen a1 a2 b1 b2

/-- Parameter u along the second segment, as computed by line_line_intersection. -/
def lliU (a1 a2 b1 b2 : Vec3) : ℚ :=
  -((a1.x - a2.x) * (a1.y - b1.y) - (a1.y - a2.y) * (a1.x - b1.x)) / lliDen a1 a2 b1 b2

/-- Model of line_line_intersection in src/utils.rs.  The Rust function returns
Result with Err mapped to none here.  A zero denominator returns Err at once;
otherwise the intersection point is returned exactly when t lies strictly in
(0, 1) and u is strictly greater than 1. -/
def line_line_intersection (a1 a2 b1 b2 : Vec3) : Option Vec3 :=
  if lliDen a1 a2 b1 b2 = 0 then none
  else if 0 < lliT a1 a2 b1 b2 ∧ lliT a1 a2 b1 b2 < 1 ∧ 1 < lliU a1 a2 b1 b2 then
    some ⟨a1.x + lliT a1 a2 b1 b2 * (a2.x - a1.x),
          a1.y + lliT a1 a2 b1 b2 * (a2.y - a1.y), 0⟩
  else none

/-- C1: line_line_intersection returns an intersection point exactly when the
determinant denominator is nonzero, the wall-segment parameter t lies strictly
in (0, 1), and the ray parameter u is strictly greater than 1; a zero
denominator (parallel or collinear input) always returns no intersection, and
the returned point is a1 + t (a2 - a1) with z = 0. -/
theorem C1_line_line_intersection_spec (a1 a2 b1 b2 : Vec3) :
    (lliDen a1 a2 b1 b2 = 0 → line_line_intersection a1 a2 b1 b2 = none) ∧
    (∀ p, line_line_intersection a1 a2 b1 b2 = some p ↔
      (lliDen a1 a2 b1 b2 ≠ 0 ∧ 0 < lliT a1 a2 b1 b2 ∧ lliT a1 a2 b1 b2 < 1 ∧
       1 < lliU a1 a2 b1 b2 ∧
       p = ⟨a1.x + lliT a1 a2 b1 b2 * (a2.x - a1.x),
            a1.y + lliT a1 a2 b1 b2 * (a2.y - a1.y), 0⟩)) := by
  constructor
  · intro h
    simp [line_line_intersection, h]
  · intro p
    unfold line_line_intersection
    by_cases hden : lliDen a1 a2 b1 b2 = 0
    · simp [hden]
    · rw [if_neg hden]
      by_cases hacc : 0 < lliT a1 a2 b1 b2 ∧ lliT a1 a2 b1 b2 < 1 ∧ 1 < lliU a1 a2 b1 b2
      · rw [if_pos hacc]
        constructor
        · intro hp
          exact ⟨hden, hacc.1, hacc.2.1, hacc.2.2, (Option.some_inj.mp hp).symm⟩
        · intro hcl
          rw [hcl.2.2.2.2]
      · rw [if_neg hacc]
        constructor
        · intro hp
          exact Option.noConfusion hp
        · intro hcl
          exact absurd ⟨hcl.2.1, hcl.2.2.1, hcl.2.2.2.1⟩ hacc

/-- Witness for C1: a collinear configuration has zero denominator and indeed
produces no intersection, through the theorem itself. -/
theorem C1_witness :
    lliDen ⟨0, 0, 0⟩ ⟨1, 0, 0⟩ ⟨2, 0, 0⟩ ⟨3, 0, 0⟩ = 0 ∧
    line_line_intersection ⟨0, 0, 0⟩ ⟨1, 0, 0⟩ ⟨2, 0, 0⟩ ⟨3, 0, 0⟩ = none :=
  ⟨by norm_num [lliDen],
   (C1_line_line_intersection_spec _ _ _ _).1 (by norm_num [lliDen])⟩

/-- C8 counterexample: for the wall from (-10, 0) to (10, 0) and the agent ray
from (0, 5) to (0, -5) that crosses the wall at (0, 0), the computed ray
parameter u equals 1/2, not a value greater than 1, and the function returns
no intersection rather than Ok((0, 0)). -/
theorem C8_counterexample :
    line_line_intersection ⟨-10, 0, 0⟩ ⟨10, 0, 0⟩ ⟨0, 5, 0⟩ ⟨0, -5, 0⟩ = none ∧
    lliU ⟨-10, 0, 0⟩ ⟨10, 0, 0⟩ ⟨0, 5, 0⟩ ⟨0, -5, 0⟩ = 1 / 2 := by
  have hu : lliU ⟨-10, 0, 0⟩ ⟨10, 0, 0⟩ ⟨0, 5, 0⟩ ⟨0, -5, 0⟩ = 1 / 2 := by
    norm_num [lliU, lliDen]
  refine ⟨?_, hu⟩
  unfold line_line_intersection
  rw [if_neg (by norm_num [lliDen]), if_neg (by rw [hu]; norm_num)]

/-- C8 (amended): with the wall from (-10, 0) to (10, 0), the ray from (0, -5)
to (0, -15) moving away from the wall returns no intersection; the ray from
(0, 5) to (0, -5) that crosses the wall within one step computes u = 1/2, which
fails the u > 1 test, so it also returns no intersection; a ray from (0, 5) to
(0, 3), whose crossing lies beyond the one-step look-ahead, computes u = 5/2 > 1
and returns the point (0, 0). -/
theorem C8_line_line_intersection_examples :
    (line_line_intersection ⟨-10, 0, 0⟩ ⟨10, 0, 0⟩ ⟨0, -5, 0⟩ ⟨0, -15, 0⟩ = none) ∧
    (line_line_intersection ⟨-10, 0, 0⟩ ⟨10, 0, 0⟩ ⟨0, 5, 0⟩ ⟨0, -5, 0⟩ = none ∧
     lliU ⟨-10, 0, 0⟩ ⟨10, 0, 0⟩ ⟨0, 5, 0⟩ ⟨0, -5, 0⟩ = 1 / 2) ∧
    (line_line_intersection ⟨-10, 0, 0⟩ ⟨10, 0, 0⟩ ⟨0, 5, 0⟩ ⟨0, 3, 0⟩ = some ⟨0, 0, 0⟩ ∧
     lliU ⟨-10, 0, 0⟩ ⟨10, 0, 0⟩ ⟨0, 5, 0⟩ ⟨0, 3, 0⟩ = 5 / 2) := by
  have hu1 : lliU ⟨-10, 0, 0⟩ ⟨10, 0, 0⟩ ⟨0, -5, 0⟩ ⟨0, -15, 0⟩ = -(1 / 2) := by
    norm_num [lliU, lliDen]
  have hu2 : lliU ⟨-10, 0, 0⟩ ⟨10, 0, 0⟩ ⟨0, 5, 0⟩ ⟨0, -5, 0⟩ = 1 / 2 := by
    norm_num [lliU, lliDen]
  have hu3 : lliU ⟨-10, 0, 0⟩ ⟨10, 0, 0⟩ ⟨0, 5, 0⟩ ⟨0, 3, 0⟩ = 5 / 2 := by
    norm_num [lliU, lliDen]
  have ht3 : lliT ⟨-10, 0, 0⟩ ⟨10, 0, 0⟩ ⟨0, 5, 0⟩ ⟨0, 3, 0⟩ = 1 / 2 := by
    norm_num [lliT, lliDen]
  refine ⟨?_, ⟨?_, hu2⟩, ?_, hu3⟩
  · unfold line_line_intersection
    rw [if_neg (by norm_num [lliDen]), if_neg (by rw [hu1]; norm_num)]
  · unfold line_line_intersection
    rw [if_neg (by norm_num [lliDen]), if_neg (by rw [hu2]; norm_num)]
  · unfold line_line_intersection
    rw [if_neg (by norm_num [lliDen]),
      if_pos ⟨by rw [ht3]; norm_num, by rw [ht3]; norm_num, by rw [hu3]; norm_num⟩,
      Option.some_inj]
    rw [ht3]
    show Vec3.mk (-10 + 1 / 2 * (10 - -10)) (0 + 1 / 2 * (0 - 0)) 0 = ⟨0, 0, 0⟩
    norm_num

/-- Vector with real components.  Steering forces involve square roots and
trigonometry, which are irrational in general, so the force layer of the model
lives over the reals. -/
structure Vec3R where
  x : ℝ
  y : ℝ
  z : ℝ

theorem Vec3R.ext_mk {a b : Vec3R} (hx : a.x = b.x) (hy : a.y = b.y)
    (hz : a.z = b.z) : a = b := by
  cases a; cases b; cases hx; cases hy; cases hz; rfl

instance : Add Vec3R := ⟨fun a b => ⟨a.x + b.x, a.y + b.y, a.z + b.z⟩⟩

instance : Sub Vec3R := ⟨fun a b => ⟨a.x - b.x, a.y - b.y, a.z - b.z⟩⟩

instance : Zero Vec3R := ⟨⟨0, 0, 0⟩⟩

instance : SMul ℝ Vec3R := ⟨fun c v => ⟨c * v.x, c * v.y, c * v.z⟩⟩

/-- Embedding of exact rational vectors into the real force layer. -/
def Vec3.toR (v : Vec3) : Vec3R := ⟨(v.x : ℝ), (v.y : ℝ), (v.z : ℝ)⟩

/-- Squared magnitude, the mag_sq computation of limit in src/utils.rs. -/
def magSqR (v : Vec3R) : ℝ := v.x * v.x + v.y * v.y + v.z * v.z

/-- Euclidean length of a vector, the glam length function (all three
components, unlike the horizontal dist of utils.rs). -/
noncomputable def normR (v : Vec3R) : ℝ := Real.sqrt (magSqR v)

/-- Model of limit in src/utils.rs: if the squared magnitude exceeds the
square of the bound, rescale the vector to that bound, else return it
unchanged. -/
noncomputable def limit (v : Vec3R) (m : ℝ) : Vec3R :=
  if magSqR v > m * m then (m / Real.sqrt (magSqR v)) • v else v

/-- Model of glam Vec3 normalize on nonzero finite input: the vector scaled by
the reciprocal of its length.  The zero-vector behaviour, which is not
expressible over the reals, is captured separately by the IEEE carrier below. -/
noncomputable def normalizeR (v : Vec3R) : Vec3R := (normR v)⁻¹ • v

/-- Model of set_mag in src/utils.rs over the real force layer:
vec.normalize() * n. -/
noncomputable def set_mag (v : Vec3R) (n : ℝ) : Vec3R := n • normalizeR v

/-- Model of seek in src/steering.rs. -/
noncomputable def seek (position velocity target : Vec3R) (maxSpeed : ℝ) : Vec3R :=
  limit (set_mag (target - position) maxSpeed - velocity) maxSpeed

/-- Model of flee in src/steering.rs: the mirror of seek, desired direction is
position - target. -/
noncomputable def flee (position velocity target : Vec3R) (maxSpeed : ℝ) : Vec3R :=
  limit (set_mag (position - target) maxSpeed - velocity) maxSpeed

/-- Model of the f32 atan2 function: the argument of the complex number
x + y i, which matches the atan2 convention. -/
noncomputable def atan2R (y x : ℝ) : ℝ := Complex.arg ⟨x, y⟩

/-- Model of wander in src/steering.rs. -/
noncomputable def wander (position velocity : Vec3R)
    (wanderRadius distance theta maxForce : ℝ) : Vec3R :=
  let wanderPoint := set_mag velocity distance + position
  let th := theta + atan2R velocity.y velocity.x
  let wanderPoint2 := wanderPoint +
    ⟨wanderRadius * Real.cos th, wanderRadius * Real.sin th, 0⟩
  set_mag (wanderPoint2 - position) maxForce

/-- Model of pursue in src/steering.rs: seek the single-step linear
extrapolation of the target. -/
noncomputable def pursue (position velocity targetPosition targetVelocity : Vec3R)
    (maxSpeed : ℝ) : Vec3R :=
  let d := targetPosition - position
  let t := normR d / maxSpeed
  seek position velocity (targetPosition + t • targetVelocity) maxSpeed

/-- Model of evade in src/steering.rs: flee the single-step linear
extrapolation of the target. -/
noncomputable def evade (position velocity targetPosition targetVelocity : Vec3R)
    (maxSpeed : ℝ) : Vec3R :=
  let d := targetPosition - position
  let t := normR d / maxSpeed
  flee position velocity (targetPosition + t • targetVelocity) maxSpeed

theorem Vec3R.smul_smul (a b : ℝ) (v : Vec3R) : a • (b • v) = (a * b) • v := by
  refine Vec3R.ext_mk ?_ ?_ ?_ <;> simp [HSMul.hSMul, SMul.smul, mul_assoc]

theorem magSqR_smul (c : ℝ) (v : Vec3R) :
    magSqR (c • v) = (c * c) * magSqR v := by
  simp only [magSqR, HSMul.hSMul, SMul.smul]
  ring

theorem normR_smul (c : ℝ) (v : Vec3R) : normR (c • v) = |c| * normR v := by
  rw [normR, magSqR_smul, normR, show c * c = c ^ 2 by ring,
    Real.sqrt_mul (sq_nonneg c), Real.sqrt_sq_eq_abs]

theorem magSqR_toR_pos (v : Vec3) (hv : v ≠ 0) : 0 < magSqR v.toR := by
  rcases v with ⟨a, b, c⟩
  have hne : ¬(a = 0 ∧ b = 0 ∧ c = 0) := by
    intro ⟨h1, h2, h3⟩
    exact hv (by rw [h1, h2, h3]; rfl)
  simp only [magSqR, Vec3.toR]
  rcases not_and_or.mp hne with h | h
  · have h0 : ((a : ℝ)) ≠ 0 := by exact_mod_cast h
    nlinarith [mul_self_nonneg (b : ℝ), mul_self_nonneg (c : ℝ), mul_self_pos.mpr h0]
  · rcases not_and_or.mp h with h | h
    · have h0 : ((b : ℝ)) ≠ 0 := by exact_mod_cast h
      nlinarith [mul_self_nonneg (a : ℝ), mul_self_nonneg (c : ℝ), mul_self_pos.mpr h0]
    · have h0 : ((c : ℝ)) ≠ 0 := by exact_mod_cast h
      nlinarith [mul_self_nonneg (a : ℝ), mul_self_nonneg (b : ℝ), mul_self_pos.mpr h0]

theorem normR_toR_pos (v : Vec3) (hv : v ≠ 0) : 0 < normR v.toR :=
  Real.sqrt_pos.mpr (magSqR_toR_pos v hv)

/-- C7 (amended): for every nonzero v and every n with 0 ≤ n, set_mag(v, n) is
the nonnegative multiple (n / |v|) of v — so the direction of v is unchanged —
and its length is exactly n.  The zero-vector case is settled separately: it
yields the all-NaN vector, not the zero vector. -/
theorem C7_set_mag_spec (v : Vec3) (n : ℚ) (hv : v ≠ 0) (hn : 0 ≤ n) :
    normR (set_mag v.toR (n : ℝ)) = (n : ℝ) ∧
    set_mag v.toR (n : ℝ) = ((n : ℝ) / normR v.toR) • v.toR ∧
    0 ≤ (n : ℝ) / normR v.toR := by
  have hl : 0 < normR v.toR := normR_toR_pos v hv
  have hform : set_mag v.toR (n : ℝ) = ((n : ℝ) / normR v.toR) • v.toR := by
    rw [set_mag, normalizeR, Vec3R.smul_smul, div_eq_mul_inv]
  have hnn : (0 : ℝ) ≤ (n : ℝ) := by exact_mod_cast hn
  refine ⟨?_, hform, div_nonneg hnn hl.le⟩
  rw [hform, normR_smul, abs_of_nonneg (div_nonneg hnn hl.le),
    div_mul_cancel₀ _ (ne_of_gt hl)]

/-- Witness for C7: the vector (3, 4, 0) scaled to magnitude 2. -/
theorem C7_witness :
    ((⟨3, 4, 0⟩ : Vec3) ≠ 0 ∧ (0 : ℚ) ≤ 2) ∧
    (normR (set_mag (Vec3.toR ⟨3, 4, 0⟩) ((2 : ℚ) : ℝ)) = ((2 : ℚ) : ℝ) ∧
     set_mag (Vec3.toR ⟨3, 4, 0⟩) ((2 : ℚ) : ℝ) =
       (((2 : ℚ) : ℝ) / normR (Vec3.toR ⟨3, 4, 0⟩)) • Vec3.toR ⟨3, 4, 0⟩ ∧
     0 ≤ ((2 : ℚ) : ℝ) / normR (Vec3.toR ⟨3, 4, 0⟩)) :=
  have h1 : (⟨3, 4, 0⟩ : Vec3) ≠ 0 := fun h => by
    have hx : ((3 : ℚ)) = 0 := congrArg Vec3.x h
    norm_num at hx
  have h2 : (0 : ℚ) ≤ 2 := by norm_num
  ⟨⟨h1, h2⟩, C7_set_mag_spec ⟨3, 4, 0⟩ 2 h1 h2⟩

/-- Carrier of IEEE-754 f32 values as used by this development: NaN, the two
infinities, and finite values (held exactly as rationals; every finite value
this file evaluates is exactly representable). -/
inductive FP where
  | nan : FP
  | inf : FP
  | ninf : FP
  | fin : ℚ → FP
  deriving DecidableEq, Repr

/-- IEEE multiplication on the carrier: NaN propagates, zero times an infinity
is NaN, a nonzero finite value times an infinity is a signed infinity, and
finite products are exact. -/
def fmul : FP → FP → FP
  | .nan, _ => .nan
  | _, .nan => .nan
  | .inf, .inf => .inf
  | .inf, .ninf => .ninf
  | .ninf, .inf => .ninf
  | .ninf, .ninf => .inf
  | .inf, .fin q => if q = 0 then .nan else if 0 < q then .inf else .ninf
  | .fin q, .inf => if q = 0 then .nan else if 0 < q then .inf else .ninf
  | .ninf, .fin q => if q = 0 then .nan else if 0 < q then .ninf else .inf
  | .fin q, .ninf => if q = 0 then .nan else if 0 < q then .ninf else .inf
  | .fin a, .fin b => .fin (a * b)

/-- IEEE addition on the carrier: NaN propagates, opposite infinities give NaN,
finite sums are exact. -/
def fadd : FP → FP → FP
  | .nan, _ => .nan
  | _, .nan => .nan
  | .inf, .ninf => .nan
  | .ninf, .inf => .nan
  | .inf, _ => .inf
  | _, .inf => .inf
  | .ninf, _ => .ninf
  | _, .ninf => .ninf
  | .fin a, .fin b => .fin (a + b)

/-- IEEE reciprocal: the reciprocal of (positive) zero is positive infinity,
which is what f32 recip returns for the 0.0 literal. -/
def frecip : FP → FP
  | .nan => .nan
  | .inf => .fin 0
  | .ninf => .fin 0
  | .fin q => if q = 0 then .inf else .fin q⁻¹

/-- Rational square-root approximation used as the finite payload of fsqrt; it
is exact on perfect squares, and this development only ever evaluates it at 0. -/
def ratSqrt (q : ℚ) : ℚ := ((Nat.sqrt q.num.toNat : ℚ)) / ((Nat.sqrt q.den : ℚ))

/-- IEEE square root on the carrier: NaN for negative input, exact zero for
zero. -/
def fsqrt : FP → FP
  | .nan => .nan
  | .inf => .inf
  | .ninf => .nan
  | .fin q => if q < 0 then .nan else if q = 0 then .fin 0 else .fin (ratSqrt q)

/-- Vector of IEEE carrier values. -/
structure Vec3F where
  x : FP
  y : FP
  z : FP
  deriving DecidableEq, Repr

/-- Componentwise scaling of a glam Vec3 by an f32 scalar. -/
def scaleF (v : Vec3F) (c : FP) : Vec3F := ⟨fmul v.x c, fmul v.y c, fmul v.z c⟩

/-- Length as computed by glam: the square root of the dot product with
itself. -/
def lengthF (v : Vec3F) : FP :=
  fsqrt (fadd (fadd (fmul v.x v.x) (fmul v.y v.y)) (fmul v.z v.z))

/-- Model of glam Vec3 normalize: self * self.length_recip().  On the zero
vector the length is zero, its reciprocal is positive infinity, and zero times
infinity is NaN in every component. -/
def normalizeF (v : Vec3F) : Vec3F := scaleF v (frecip (lengthF v))

/-- Model of set_mag in src/utils.rs over the IEEE carrier:
vec.normalize() * n. -/
def set_mag_f (v : Vec3F) (n : FP) : Vec3F := scaleF (normalizeF v) n

/-- C7 counterexample: set_mag applied to the zero-length vector produces the
all-NaN vector, not the zero vector — normalize multiplies the zero vector by
the infinite reciprocal of its zero length, and 0 times infinity is NaN. -/
theorem C7_counterexample :
    set_mag_f ⟨.fin 0, .fin 0, .fin 0⟩ (.fin 1) = ⟨.nan, .nan, .nan⟩ ∧
    (⟨.nan, .nan, .nan⟩ : Vec3F) ≠ ⟨.fin 0, .fin 0, .fin 0⟩ := by
  constructor
  · show scaleF (normalizeF ⟨.fin 0, .fin 0, .fin 0⟩) (.fin 1) = ⟨.nan, .nan, .nan⟩
    norm_num [normalizeF, scaleF, lengthF, fsqrt, fadd, fmul, frecip]
  · intro h
    exact FP.noConfusion (congrArg Vec3F.x h)

/-- Steering configuration for wander, WanderData in src/steering.rs.  The
displace range bounds the random theta jitter, which this model injects as
explicit displacement lists. -/
structure WanderData where
  weight : ℚ
  displaceRange : ℚ
  radius : ℚ
  maxForce : ℚ
  distance : ℚ

/-- Flocking configuration, FlockingData in src/steering.rs. -/
structure FlockingData where
  perceptionRadius : ℚ
  maxForce : ℚ

/-- An arena wall segment, WallData in src/main.rs. -/
structure WallData where
  pointA : Vec3
  pointB : Vec3

/-- Kinematic and per-tick steering state shared by every agent: the Physics
component (velocity, acceleration, wander_theta) of src/steering.rs, the force
accumulator of the per-species behavior component, and the Transform
translation.  The rotation, which the move systems derive from velocity, and
the uniform per-species scale are omitted; the Transform equality comparisons
of the source are modelled as translation equality. -/
structure AgentK where
  translation : Vec3
  velocity : Vec3
  wanderTheta : ℝ
  acceleration : Vec3R
  force : Vec3R

/-- Kinematic state after integration: clamping the velocity introduces a
square root, so positions and velocities become real-valued. -/
structure KinR where
  translation : Vec3R
  velocity : Vec3R
  wanderTheta : ℝ
  acceleration : Vec3R
  force : Vec3R

/-- Embedding of pre-integration kinematics into the real-valued state. -/
def AgentK.toR (k : AgentK) : KinR :=
  ⟨k.translation.toR, k.velocity.toR, k.wanderTheta, k.acceleration, k.force⟩

/-- The integration step shared verbatim by hare_move, wolf_move and
deer_move: acceleration += force; velocity += acceleration; velocity clamped
to speed * TIME_STEP; translation += velocity; acceleration and force zeroed. -/
noncomputable def integrate (speed : ℚ) (k : AgentK) : KinR :=
  let acc := k.acceleration + k.force
  let vel := k.velocity.toR + acc
  let vel2 := limit vel ((speed : ℝ) * ((TIME_STEP : ℚ) : ℝ))
  ⟨k.translation.toR + vel2, vel2, k.wanderTheta, 0, 0⟩

/-- State of one hare: kinematics, MovementSpeed value, and the flee_time of
HareBehavior in src/hare.rs. -/
structure HareState where
  kin : AgentK
  speed : ℚ
  fleeTime : ℚ

/-- Hare state after integration. -/
structure HareStateR where
  kin : KinR
  speed : ℚ
  fleeTime : ℚ

/-- The hare species state: the ActiveHares count resource, the configured
max_number of HareData, and the live hares. -/
structure HareWorld where
  count : ℕ
  maxNumber : ℕ
  hares : List HareState

/-- Model of hare_move in src/hare.rs.  The system returns early, leaving
every agent untouched, while the active count is below max_number; otherwise
it integrates every hare. -/
noncomputable def hare_move (w : HareWorld) : List HareStateR :=
  if w.count < w.maxNumber then
    w.hares.map (fun h => ⟨h.kin.toR, h.speed, h.fleeTime⟩)
  else
    w.hares.map (fun h => ⟨integrate h.speed h.kin, h.speed, h.fleeTime⟩)

/-- Model of hare_wander in src/hare.rs.  The random displacements, sampled in
the source from -displace_range..displace_range into a vector indexed by the
running query position, are injected as an explicit list. -/
noncomputable def hare_wander (d : WanderData) (displacements : List ℚ)
    (w : HareWorld) : HareWorld :=
  if w.count < w.maxNumber then w
  else
    { w with hares := w.hares.enum.map (fun p =>
        let h := p.2
        { h with kin := { h.kin with
            force := h.kin.force + (d.weight : ℝ) •
              wander h.kin.translation.toR h.kin.velocity.toR (d.radius : ℝ)
                (d.distance : ℝ) h.kin.wanderTheta (d.maxForce : ℝ),
            wanderTheta := h.kin.wanderTheta +
              ((displacements.getD p.1 0 : ℚ) : ℝ) } }) }

/-- One iteration of the threat loop of hare_flee in src/hare.rs: skip the
hare itself; decay the speed boost when max_flee_time has elapsed since the
last trigger; then, when the threat is within 100 units, boost the speed to
base + 50, add the weighted flee force, and record the trigger time. -/
noncomputable def hare_flee_step (baseSpeed maxFleeTime weight now : ℚ)
    (h : HareState) (threat : Vec3) : HareState :=
  if threat = h.kin.translation then h
  else
    let h1 := if now ≥ h.fleeTime + maxFleeTime then
        { h with fleeTime := 0, speed := baseSpeed } else h
    if distSq h.kin.translation threat < 100 * 100 then
      let fleeForce :=
        flee h1.kin.translation.toR h1.kin.velocity.toR threat.toR
          (((baseSpeed + 50) * TIME_STEP : ℚ) : ℝ)
      let newForce := h1.kin.force + (weight : ℝ) • fleeForce
      { h1 with
        speed := baseSpeed + 50,
        fleeTime := now,
        kin := { h1.kin with force := newForce } }
    else h1

/-- The full threat loop of hare_flee for one hare. -/
noncomputable def hare_flee_agent (baseSpeed maxFleeTime weight now : ℚ)
    (threats : List Vec3) (h : HareState) : HareState :=
  threats.foldl (hare_flee_step baseSpeed maxFleeTime weight now) h

/-- Model of the hare_flee system in src/hare.rs.  The threats parameter holds
the translations of every Threat-tagged agent, the hares themselves included. -/
noncomputable def hare_flee (baseSpeed maxFleeTime weight now : ℚ)
    (threats : List Vec3) (w : HareWorld) : HareWorld :=
  if w.count < w.maxNumber then w
  else
    let hares := w.hares.map (hare_flee_agent baseSpeed maxFleeTime weight now threats)
    { w with hares := hares }

/-- One iteration of the wall loop shared by hare_evade_walls,
wolf_evade_walls and deer_evade_walls: probe the velocity ray against the
wall; when it reports an intersection within 40 units, add the weighted flee
force away from the intersection point. -/
noncomputable def evade_wall_step (weight speed : ℚ) (pos vel : Vec3)
    (force : Vec3R) (wall : WallData) : Vec3R :=
  match line_line_intersection wall.pointA wall.pointB pos (pos + vel) with
  | none => force
  | some int =>
    if distSq pos int > 40 * 40 then force
    else force + (weight : ℝ) •
      flee pos.toR vel.toR int.toR ((speed * TIME_STEP : ℚ) : ℝ)

/-- Model of hare_evade_walls in src/hare.rs. -/
noncomputable def hare_evade_walls (weight : ℚ) (walls : List WallData)
    (w : HareWorld) : HareWorld :=
  if w.count < w.maxNumber then w
  else
    let hares := w.hares.map (fun h =>
      let f := walls.foldl
        (evade_wall_step weight h.speed h.kin.translation h.kin.velocity) h.kin.force
      { h with kin := { h.kin with force := f } })
    { w with hares := hares }

/-- State of one wolf: kinematics, MovementSpeed, and the hunger clock of
WolfBehavior in src/wolf.rs. -/
structure WolfState where
  kin : AgentK
  speed : ℚ
  hungerTime : ℚ
  maxHungerTime : ℚ

/-- Wolf state after integration. -/
structure WolfStateR where
  kin : KinR
  speed : ℚ
  hungerTime : ℚ
  maxHungerTime : ℚ

/-- The wolf species state: the ActiveWolves count, the configured max_number
of WolfData, and the live wolves. -/
structure WolfWorld where
  count : ℕ
  maxNumber : ℕ
  wolves : List WolfState

/-- Model of wolf_move in src/wolf.rs; same gating and integration as
hare_move. -/
noncomputable def wolf_move (w : WolfWorld) : List WolfStateR :=
  if w.count < w.maxNumber then
    w.wolves.map (fun wf => ⟨wf.kin.toR, wf.speed, wf.hungerTime, wf.maxHungerTime⟩)
  else
    w.wolves.map (fun wf =>
      ⟨integrate wf.speed wf.kin, wf.speed, wf.hungerTime, wf.maxHungerTime⟩)

/-- Model of wolf_wander in src/wolf.rs. -/
noncomputable def wolf_wander (d : WanderData) (displacements : List ℚ)
    (w : WolfWorld) : WolfWorld :=
  if w.count < w.maxNumber then w
  else
    { w with wolves := w.wolves.enum.map (fun p =>
        let wf := p.2
        { wf with kin := { wf.kin with
            force := wf.kin.force + (d.weight : ℝ) •
              wander wf.kin.translation.toR wf.kin.velocity.toR (d.radius : ℝ)
                (d.distance : ℝ) wf.kin.wanderTheta (d.maxForce : ℝ),
            wanderTheta := wf.kin.wanderTheta +
              ((displacements.getD p.1 0 : ℚ) : ℝ) } }) }

/-- Model of wolf_evade_walls in src/wolf.rs. -/
noncomputable def wolf_evade_walls (weight : ℚ) (walls : List WallData)
    (w : WolfWorld) : WolfWorld :=
  if w.count < w.maxNumber then w
  else
    let wolves := w.wolves.map (fun wf =>
      let f := walls.foldl
        (evade_wall_step weight wf.speed wf.kin.translation wf.kin.velocity) wf.kin.force
      { wf with kin := { wf.kin with force := f } })
    { w with wolves := wolves }

/-- One iteration of the prey loop of wolf_pursue in src/wolf.rs: the pursue
force is always computed, and the weighted force is added when the prey is
within 100 units, the zero vector otherwise. -/
noncomputable def wolf_pursue_step (weight speed : ℚ) (pos vel : Vec3)
    (f : Vec3R) (p : Vec3 × Vec3) : Vec3R :=
  let force := pursue pos.toR vel.toR p.1.toR p.2.toR ((speed * TIME_STEP : ℚ) : ℝ)
  f + (if distSq pos p.1 > 100 * 100 then (0 : Vec3R) else (weight : ℝ) • force)

/-- Model of wolf_pursue in src/wolf.rs.  The preys parameter holds the
translation and velocity of every Prey-tagged agent. -/
noncomputable def wolf_pursue (weight : ℚ) (preys : List (Vec3 × Vec3))
    (w : WolfWorld) : WolfWorld :=
  if w.count < w.maxNumber then w
  else
    let wolves := w.wolves.map (fun wf =>
      let f := preys.foldl
        (wolf_pursue_step weight wf.speed wf.kin.translation wf.kin.velocity) wf.kin.force
      { wf with kin := { wf.kin with force := f } })
    { w with wolves := wolves }

/-- The per-wolf body of wolf_starve in src/wolf.rs: an unset (0.0 sentinel)
hunger timestamp is first initialised to the current time; the wolf is then
despawned (none) exactly when now exceeds the hunger timestamp plus the
maximum hunger duration. -/
def wolf_starve_step (now : ℚ) (w : WolfState) : Option WolfState :=
  let h := if w.hungerTime = 0 then now else w.hungerTime
  if now > h + w.maxHungerTime then none else some { w with hungerTime := h }

/-- Model of the wolf_starve system in src/wolf.rs, gated like the other wolf
systems. -/
def wolf_starve (now : ℚ) (w : WolfWorld) : WolfWorld :=
  if w.count < w.maxNumber then w
  else { w with wolves := w.wolves.filterMap (wolf_starve_step now) }

/-- State of one deer: kinematics, the GroupID component value, and
MovementSpeed. -/
structure DeerState where
  kin : AgentK
  groupId : ℕ
  speed : ℚ

/-- Deer state after integration. -/
structure DeerStateR where
  kin : KinR
  groupId : ℕ
  speed : ℚ

/-- A deer group, DeerGroup in src/deer.rs. -/
structure DeerGroup where
  id : ℕ
  count : ℕ

/-- The deer species state: the DeerGroups resource, the configured
group_number of DeerData, and the live deer. -/
structure DeerWorld where
  groups : List DeerGroup
  groupNumber : ℕ
  deers : List DeerState

/-- Model of deer_move in src/deer.rs, gated on the group count. -/
noncomputable def deer_move (w : DeerWorld) : List DeerStateR :=
  if w.groups.length < w.groupNumber then
    w.deers.map (fun dr => ⟨dr.kin.toR, dr.groupId, dr.speed⟩)
  else
    w.deers.map (fun dr => ⟨integrate dr.speed dr.kin, dr.groupId, dr.speed⟩)

/-- Neighbor accumulation of deer_alignment in src/deer.rs: sum the velocities
of the same-group neighbors with a different transform that lie within the
perception radius, and count them. -/
def deer_alignment_accum (self : DeerState) (radius : ℚ)
    (others : List DeerState) : Vec3 × ℚ :=
  others.foldl (fun acc o =>
    if self.groupId = o.groupId ∧ o.kin.translation ≠ self.kin.translation ∧
        distSq self.kin.translation o.kin.translation < radius * radius then
      (acc.1 + o.kin.velocity, acc.2 + 1)
    else acc) (0, 0)

/-- Per-deer body of deer_alignment: when at least one neighbor contributed,
average the accumulated velocities, rescale to own speed, subtract the own
velocity, clamp to the alignment max force, and add into the force
accumulator; otherwise leave the deer untouched. -/
noncomputable def deer_alignment_apply (d : FlockingData)
    (others : List DeerState) (self : DeerState) : DeerState :=
  let acc := deer_alignment_accum self d.perceptionRadius others
  if 0 < acc.2 then
    let steer := limit
      (set_mag ((acc.2⁻¹ • acc.1).toR) (self.speed : ℝ) - self.kin.velocity.toR)
      (d.maxForce : ℝ)
    { self with kin := { self.kin with force := self.kin.force + steer } }
  else self

/-- Neighbor accumulation of deer_cohesion in src/deer.rs: sum the
translations of qualifying neighbors. -/
def deer_cohesion_accum (self : DeerState) (radius : ℚ)
    (others : List DeerState) : Vec3 × ℚ :=
  others.foldl (fun acc o =>
    if self.groupId = o.groupId ∧ o.kin.translation ≠ self.kin.translation ∧
        distSq self.kin.translation o.kin.translation < radius * radius then
      (acc.1 + o.kin.translation, acc.2 + 1)
    else acc) (0, 0)

/-- Per-deer body of deer_cohesion. -/
noncomputable def deer_cohesion_apply (d : FlockingData)
    (others : List DeerState) (self : DeerState) : DeerState :=
  let acc := deer_cohesion_accum self d.perceptionRadius others
  if 0 < acc.2 then
    let steer := limit
      (set_mag ((acc.2⁻¹ • acc.1 - self.kin.translation).toR) (self.speed : ℝ) -
        self.kin.velocity.toR)
      (d.maxForce : ℝ)
    { self with kin := { self.kin with force := self.kin.force + steer } }
  else self

/-- Neighbor accumulation of deer_separation in src/deer.rs: for each
qualifying neighbor at distance d, add (self - other) divided by d * d.  Since
d is the square root of the squared distance, d * d equals the squared
distance exactly. -/
def deer_separation_accum (self : DeerState) (radius : ℚ)
    (others : List DeerState) : Vec3 × ℚ :=
  others.foldl (fun acc o =>
    if self.groupId = o.groupId ∧ o.kin.translation ≠ self.kin.translation ∧
        distSq self.kin.translation o.kin.translation < radius * radius then
      (acc.1 + (distSq self.kin.translation o.kin.translation)⁻¹ •
        (self.kin.translation - o.kin.translation), acc.2 + 1)
    else acc) (0, 0)

/-- Per-deer body of deer_separation. -/
noncomputable def deer_separation_apply (d : FlockingData)
    (others : List DeerState) (self : DeerState) : DeerState :=
  let acc := deer_separation_accum self d.perceptionRadius others
  if 0 < acc.2 then
    let steer := limit
      (set_mag ((acc.2⁻¹ • acc.1).toR) (self.speed : ℝ) - self.kin.velocity.toR)
      (d.maxForce : ℝ)
    { self with kin := { self.kin with force := self.kin.force + steer } }
  else self

/-- Model of the deer_alignment system in src/deer.rs: every deer is evaluated
against the full deer query (itself excluded by the transform comparison). -/
noncomputable def deer_alignment (d : FlockingData) (w : DeerWorld) : DeerWorld :=
  if w.groups.length < w.groupNumber then w
  else
    let deers := w.deers.map (deer_alignment_apply d w.deers)
    { w with deers := deers }

/-- Model of the deer_cohesion system in src/deer.rs. -/
noncomputable def deer_cohesion (d : FlockingData) (w : DeerWorld) : DeerWorld :=
  if w.groups.length < w.groupNumber then w
  else
    let deers := w.deers.map (deer_cohesion_apply d w.deers)
    { w with deers := deers }

/-- Model of the deer_separation system in src/deer.rs. -/
noncomputable def deer_separation (d : FlockingData) (w : DeerWorld) : DeerWorld :=
  if w.groups.length < w.groupNumber then w
  else
    let deers := w.deers.map (deer_separation_apply d w.deers)
    { w with deers := deers }

/-- Per-group pass of deer_wander in src/deer.rs: deer of other groups are
skipped; the displacement index advances only over the deer of this group. -/
noncomputable def deer_wander_group (d : WanderData) (g : DeerGroup)
    (disps : List ℚ) (deers : List DeerState) : List DeerState :=
  (deers.foldl (fun (acc : List DeerState × ℕ) dr =>
    if g.id = dr.groupId then
      let f := dr.kin.force + (d.weight : ℝ) •
        wander dr.kin.translation.toR dr.kin.velocity.toR (d.radius : ℝ)
          (d.distance : ℝ) dr.kin.wanderTheta (d.maxForce : ℝ)
      let th := dr.kin.wanderTheta + ((disps.getD acc.2 0 : ℚ) : ℝ)
      (acc.1 ++ [{ dr with kin := { dr.kin with force := f, wanderTheta := th } }],
        acc.2 + 1)
    else (acc.1 ++ [dr], acc.2)) ([], 0)).1

/-- Model of deer_wander in src/deer.rs: one displacement list per group,
injected explicitly. -/
noncomputable def deer_wander (d : WanderData) (disps : List (List ℚ))
    (w : DeerWorld) : DeerWorld :=
  if w.groups.length < w.groupNumber then w
  else
    let deers := w.groups.enum.foldl
      (fun ds p => deer_wander_group d p.2 (disps.getD p.1 []) ds) w.deers
    { w with deers := deers }

/-- One iteration of the threat loop of deer_flee in src/deer.rs: skip the
deer itself; when the threat is within 100 units, add the weighted flee force
(no speed boost for deer). -/
noncomputable def deer_flee_step (weight : ℚ) (dr : DeerState)
    (f : Vec3R) (threat : Vec3) : Vec3R :=
  if threat = dr.kin.translation then f
  else if distSq dr.kin.translation threat < 100 * 100 then
    f + (weight : ℝ) • flee dr.kin.translation.toR dr.kin.velocity.toR threat.toR
      ((dr.speed * TIME_STEP : ℚ) : ℝ)
  else f

/-- Model of deer_flee in src/deer.rs.  The threats parameter holds the
translations of the Threat-tagged agents excluding hares (the query filters
Without Hare). -/
noncomputable def deer_flee (weight : ℚ) (threats : List Vec3)
    (w : DeerWorld) : DeerWorld :=
  if w.groups.length < w.groupNumber then w
  else
    let deers := w.deers.map (fun dr =>
      let f := threats.foldl (deer_flee_step weight dr) dr.kin.force
      { dr with kin := { dr.kin with force := f } })
    { w with deers := deers }

/-- One iteration of the wolf loop of deer_evade in src/deer.rs: the evade
force is always computed, and the weighted force is added when the wolf is
within 180 units, the zero vector otherwise. -/
noncomputable def deer_evade_step (weight speed : ℚ) (pos vel : Vec3)
    (f : Vec3R) (p : Vec3 × Vec3) : Vec3R :=
  let force := evade pos.toR vel.toR p.1.toR p.2.toR ((speed * TIME_STEP : ℚ) : ℝ)
  f + (if distSq pos p.1 > 180 * 180 then (0 : Vec3R) else (weight : ℝ) • force)

/-- Model of deer_evade in src/deer.rs.  The wolves parameter holds the
translation and velocity of every wolf. -/
noncomputable def deer_evade (weight : ℚ) (wolves : List (Vec3 × Vec3))
    (w : DeerWorld) : DeerWorld :=
  if w.groups.length < w.groupNumber then w
  else
    let deers := w.deers.map (fun dr =>
      let f := wolves.foldl
        (deer_evade_step weight dr.speed dr.kin.translation dr.kin.velocity) dr.kin.force
      { dr with kin := { dr.kin with force := f } })
    { w with deers := deers }

/-- Model of deer_evade_walls in src/deer.rs. -/
noncomputable def deer_evade_walls (weight : ℚ) (walls : List WallData)
    (w : DeerWorld) : DeerWorld :=
  if w.groups.length < w.groupNumber then w
  else
    let deers := w.deers.map (fun dr =>
      let f := walls.foldl
        (evade_wall_step weight dr.speed dr.kin.translation dr.kin.velocity) dr.kin.force
      { dr with kin := { dr.kin with force := f } })
    { w with deers := deers }

/-- Model of the bevy sprite collide_aabb::collide test used by the death
systems, reduced to whether it reports a collision (is_some): strict
axis-aligned bounding-box overlap of two rectangles given by center and size.
This is the external collision primitive of the host engine. -/
def collideP (apos : Vec3) (aw ah : ℚ) (bpos : Vec3) (bw bh : ℚ) : Prop :=
  apos.x - aw / 2 < bpos.x + bw / 2 ∧ bpos.x - bw / 2 < apos.x + aw / 2 ∧
  apos.y - ah / 2 < bpos.y + bh / 2 ∧ bpos.y - bh / 2 < apos.y + ah / 2

instance collideP.decidable (apos : Vec3) (aw ah : ℚ) (bpos : Vec3) (bw bh : ℚ) :
    Decidable (collideP apos aw ah bpos bw bh) := by
  unfold collideP
  infer_instance

/-- Despawn marking: entity removal through Commands is idempotent, so a
second removal of the same entity is a no-op (spec section 9, reproducing the
apparent intent of the double-despawn race). -/
def despawn_mark (l : List ℕ) (e : ℕ) : List ℕ := if e ∈ l then l else l ++ [e]

/-- The predator loop of hare_die and deer_die: walk the wolves in order;
on the first overlapping wolf, mark the prey removed, set that wolf's hunger
timestamp to the current time, and break out, leaving every later wolf
untouched.  Returns whether a wolf was hit together with the updated wolves. -/
def prey_wolf_loop (ppos : Vec3) (pw ph ww wh now : ℚ) :
    List WolfState → Bool × List WolfState
  | [] => (false, [])
  | w :: ws =>
    if collideP ppos pw ph w.kin.translation ww wh then
      (true, { w with hungerTime := now } :: ws)
    else
      let r := prey_wolf_loop ppos pw ph ww wh now ws
      (r.1, w :: r.2)

/-- A projectile, the Bullet entity of src/player.rs, identified for removal
bookkeeping. -/
structure Bullet where
  id : ℕ
  translation : Vec3

/-- The projectile loop of hare_die and deer_die: for every overlapping
bullet, mark both the prey and the bullet removed.  It runs over the full
bullet query regardless of the predator loop outcome. -/
def prey_bullet_loop (ppos : Vec3) (pw ph bw bh : ℚ) (preyId : ℕ) :
    List Bullet → List ℕ → List ℕ → List ℕ × List ℕ
  | [], removed, removedBullets => (removed, removedBullets)
  | b :: bs, removed, removedBullets =>
    if collideP ppos pw ph b.translation bw bh then
      prey_bullet_loop ppos pw ph bw bh preyId bs
        (despawn_mark removed preyId) (despawn_mark removedBullets b.id)
    else prey_bullet_loop ppos pw ph bw bh preyId bs removed removedBullets

/-- Per-prey body shared by hare_die in src/hare.rs and deer_die in
src/deer.rs (the two systems are textually identical up to the species
bounding-box sizes): first the predator loop with its early exit, then the
independent projectile loop.  Returns the removed-prey marks, the updated
wolves, and the removed-bullet marks. -/
def prey_die_step (pw ph ww wh bw bh now : ℚ) (prey : ℕ × Vec3)
    (wolves : List WolfState) (bullets : List Bullet)
    (removed removedBullets : List ℕ) : List ℕ × List WolfState × List ℕ :=
  let wres := prey_wolf_loop prey.2 pw ph ww wh now wolves
  let removed1 := if wres.1 then despawn_mark removed prey.1 else removed
  let bres := prey_bullet_loop prey.2 pw ph bw bh prey.1 bullets removed1 removedBullets
  (bres.1, wres.2, bres.2)

/-- The whole death system (hare_die or deer_die): fold the per-prey body over
every live prey; wolf hunger updates made for one prey are visible to the
next, while despawns are deferred commands, so every prey still sees the full
bullet list. -/
def prey_die (pw ph ww wh bw bh now : ℚ) (preys : List (ℕ × Vec3))
    (wolves : List WolfState) (bullets : List Bullet) :
    List ℕ × List WolfState × List ℕ :=
  preys.foldl (fun acc p =>
    let r := prey_die_step pw ph ww wh bw bh now p acc.2.1 bullets acc.1 acc.2.2
    (r.1, r.2.1, r.2.2)) ([], wolves, [])

/-- Model of rand gen_range over rationals: sampling an empty range is a
fault (the source panics); the sampled value itself is injected by the
caller. -/
def genRangeQ (lo hi r : ℚ) : Except Unit ℚ :=
  if lo < hi then .ok r else .error ()

/-- Model of rand gen_range over naturals, used for the deer group size drawn
from 3..max_number. -/
def genRangeN (lo hi r : ℕ) : Except Unit ℕ :=
  if lo < hi then .ok r else .error ()

/-- The component bundle inserted by a spawn system: translation, the Threat
and Prey capability tags (false means the tag component is absent), the
MovementSpeed value and the initial velocity. -/
structure SpawnBundle where
  translation : Vec3
  threat : Bool
  prey : Bool
  speed : ℚ
  velocity : Vec3

/-- Bundle inserted by hare_spawn in src/hare.rs: Hare, Threat and Prey tags,
MovementSpeed, and Physics with initial velocity (0, -2, 0). -/
def hare_spawn_bundle (x y speed : ℚ) : SpawnBundle :=
  ⟨⟨x, y, 0⟩, true, true, speed, ⟨0, -2, 0⟩⟩

/-- Bundle inserted by wolf_spawn in src/wolf.rs: Threat tag only. -/
def wolf_spawn_bundle (x y speed : ℚ) : SpawnBundle :=
  ⟨⟨x, y, 0⟩, true, false, speed, ⟨0, -2, 0⟩⟩

/-- Bundle inserted by deer_spawn in src/deer.rs: Prey tag only. -/
def deer_spawn_bundle (x y speed : ℚ) : SpawnBundle :=
  ⟨⟨x, y, 0⟩, false, true, speed, ⟨0, -2, 0⟩⟩

/-- Bundle inserted by player_spawn in src/player.rs: both Threat and Prey. -/
def player_spawn_bundle (t : Vec3) (speed : ℚ) : SpawnBundle :=
  ⟨t, true, true, speed, ⟨0, -2, 0⟩⟩

/-- The translations of the Threat-tagged members of an agent soup, what the
threat query of hare_flee iterates over. -/
def threat_positions (agents : List SpawnBundle) : List Vec3 :=
  (agents.filter (fun a => a.threat)).map (fun a => a.translation)

/-- Hare state created from a spawn bundle: wander_theta starts at pi / 2,
force and acceleration at zero, flee_time at 0. -/
noncomputable def hare_state_of_bundle (b : SpawnBundle) : HareState :=
  ⟨⟨b.translation, b.velocity, Real.pi / 2, 0, 0⟩, b.speed, 0⟩

/-- Wolf state created from a spawn bundle: hunger_time starts at the 0.0
sentinel and max_hunger_time at 5.0. -/
noncomputable def wolf_state_of_bundle (b : SpawnBundle) : WolfState :=
  ⟨⟨b.translation, b.velocity, Real.pi / 2, 0, 0⟩, b.speed, 0, 5⟩

/-- Deer state created from a spawn bundle and its group id. -/
noncomputable def deer_state_of_bundle (gid : ℕ) (b : SpawnBundle) : DeerState :=
  ⟨⟨b.translation, b.velocity, Real.pi / 2, 0, 0⟩, gid, b.speed⟩

/-- Model of hare_spawn in src/hare.rs: while the active count is below
max_number, draw a position inside the inset arena span and spawn one hare;
otherwise do nothing.  Sampling faults (empty ranges) surface as errors. -/
noncomputable def hare_spawn (fieldW fieldH speed rx ry : ℚ)
    (w : HareWorld) : Except Unit HareWorld :=
  if w.count < w.maxNumber then
    let wspan := fieldW / 2 - 30
    let hspan := fieldH / 2 - 30
    (genRangeQ (-wspan) wspan rx).bind fun x =>
    (genRangeQ (-hspan) hspan ry).bind fun y =>
    .ok { w with
      hares := w.hares ++ [hare_state_of_bundle (hare_spawn_bundle x y speed)],
      count := w.count + 1 }
  else .ok w

/-- Model of wolf_spawn in src/wolf.rs. -/
noncomputable def wolf_spawn (fieldW fieldH speed rx ry : ℚ)
    (w : WolfWorld) : Except Unit WolfWorld :=
  if w.count < w.maxNumber then
    let wspan := fieldW / 2 - 30
    let hspan := fieldH / 2 - 30
    (genRangeQ (-wspan) wspan rx).bind fun x =>
    (genRangeQ (-hspan) hspan ry).bind fun y =>
    .ok { w with
      wolves := w.wolves ++ [wolf_state_of_bundle (wolf_spawn_bundle x y speed)],
      count := w.count + 1 }
  else .ok w

/-- Model of deer_spawn in src/deer.rs: while the group count is below
group_number, draw a group origin inside the inset span (60 units), draw the
group size from 3..max_number (a fault when that range is empty), and spawn
that many deer around the origin with injected offsets, all sharing a fresh
group id. -/
noncomputable def deer_spawn (fieldW fieldH speed : ℚ) (maxNumber : ℕ)
    (rx ry : ℚ) (rcount rid : ℕ) (offsets : List (ℚ × ℚ))
    (w : DeerWorld) : Except Unit DeerWorld :=
  if w.groups.length < w.groupNumber then
    let wspan := fieldW / 2 - 60
    let hspan := fieldH / 2 - 60
    (genRangeQ (-wspan) wspan rx).bind fun x =>
    (genRangeQ (-hspan) hspan ry).bind fun y =>
    (genRangeN 3 maxNumber rcount).bind fun deerCount =>
    .ok { w with
      groups := w.groups ++ [⟨rid, deerCount⟩],
      deers := w.deers ++ (List.range deerCount).map (fun i =>
        deer_state_of_bundle rid (deer_spawn_bundle
          (x + (offsets.getD i (0, 0)).1) (y + (offsets.getD i (0, 0)).2) speed)) }
  else .ok w

/-- Iterated ticks of the hare spawn system with an injected randomness
stream. -/
noncomputable def hare_spawn_iter (fieldW fieldH speed : ℚ) (rng : ℕ → ℚ × ℚ) :
    ℕ → HareWorld → Except Unit HareWorld
  | 0, w => .ok w
  | n + 1, w =>
    (hare_spawn fieldW fieldH speed (rng n).1 (rng n).2 w).bind
      (hare_spawn_iter fieldW fieldH speed rng n)

/-- Iterated ticks of the wolf spawn system. -/
noncomputable def wolf_spawn_iter (fieldW fieldH speed : ℚ) (rng : ℕ → ℚ × ℚ) :
    ℕ → WolfWorld → Except Unit WolfWorld
  | 0, w => .ok w
  | n + 1, w =>
    (wolf_spawn fieldW fieldH speed (rng n).1 (rng n).2 w).bind
      (wolf_spawn_iter fieldW fieldH speed rng n)

/-- Iterated ticks of the deer spawn system. -/
noncomputable def deer_spawn_iter (fieldW fieldH speed : ℚ) (maxNumber : ℕ)
    (rng : ℕ → (ℚ × ℚ) × ℕ × ℕ) (offs : ℕ → List (ℚ × ℚ)) :
    ℕ → DeerWorld → Except Unit DeerWorld
  | 0, w => .ok w
  | n + 1, w =>
    (deer_spawn fieldW fieldH speed maxNumber (rng n).1.1 (rng n).1.2
      (rng n).2.1 (rng n).2.2 (offs n) w).bind
      (deer_spawn_iter fieldW fieldH speed maxNumber rng offs n)

theorem vec3R_add_def (a b : Vec3R) : a + b = ⟨a.x + b.x, a.y + b.y, a.z + b.z⟩ := rfl

theorem vec3R_sub_def (a b : Vec3R) : a - b = ⟨a.x - b.x, a.y - b.y, a.z - b.z⟩ := rfl

theorem vec3R_zero_def : (0 : Vec3R) = ⟨0, 0, 0⟩ := rfl

theorem vec3R_smul_def (c : ℝ) (v : Vec3R) : c • v = ⟨c * v.x, c * v.y, c * v.z⟩ := rfl

theorem vec3_add_def (a b : Vec3) : a + b = ⟨a.x + b.x, a.y + b.y, a.z + b.z⟩ := rfl

/-- Concrete kinematic state used by the closed instances below: position p,
the spawn velocity (0, -2, 0), zero accумulators. -/
noncomputable def kinAt (p : Vec3) : AgentK := ⟨p, ⟨0, -2, 0⟩, 0, 0, 0⟩

/-- C2: if the hunger timestamp holds the 0.0 sentinel, the starvation system
first sets it to the current time, and the predator survives that observation;
a predator last fed at t0 (a set, nonzero timestamp) with max hunger duration 5
is still alive at t0 + 4.9 and removed at t0 + 5.1; a predation collision at
t0 + 3 sets the timestamp to the collision time, so the predator is still
alive at t0 + 5.1, past the original deadline. -/
theorem C2_hunger_clock :
    (∀ (now : ℚ) (w : WolfState), w.hungerTime = 0 → 0 ≤ w.maxHungerTime →
      wolf_starve_step now w = some { w with hungerTime := now }) ∧
    (∀ (t0 : ℚ) (w : WolfState), t0 ≠ 0 → w.hungerTime = t0 → w.maxHungerTime = 5 →
      wolf_starve_step (t0 + 49 / 10) w = some w ∧
      wolf_starve_step (t0 + 51 / 10) w = none) ∧
    (∀ (t0 : ℚ) (w : WolfState), 0 < t0 → w.maxHungerTime = 5 →
      prey_wolf_loop w.kin.translation 60 60 60 60 (t0 + 3) [w] =
        (true, [{ w with hungerTime := t0 + 3 }]) ∧
      wolf_starve_step (t0 + 51 / 10) { w with hungerTime := t0 + 3 } =
        some { w with hungerTime := t0 + 3 }) := by
  refine ⟨?_, ?_, ?_⟩
  · intro now w h0 hmax
    have hsent : (if w.hungerTime = 0 then now else w.hungerTime) = now := if_pos h0
    simp only [wolf_starve_step, hsent]
    rw [if_neg (show ¬now > now + w.maxHungerTime by
      simp only [gt_iff_lt, not_lt]; linarith)]
  · intro t0 w hne hht hmx
    subst hht
    have hsent : ∀ nw : ℚ,
        (if w.hungerTime = 0 then nw else w.hungerTime) = w.hungerTime :=
      fun nw => if_neg hne
    constructor
    · simp only [wolf_starve_step, hsent]
      rw [if_neg (show ¬w.hungerTime + 49 / 10 > w.hungerTime + w.maxHungerTime by
        rw [hmx]; simp only [gt_iff_lt, not_lt]; linarith)]
    · simp only [wolf_starve_step, hsent]
      rw [if_pos (show w.hungerTime + 51 / 10 > w.hungerTime + w.maxHungerTime by
        rw [hmx]; simp only [gt_iff_lt]; linarith)]
  · intro t0 w ht0 hmx
    have hcol : collideP w.kin.translation 60 60 w.kin.translation 60 60 := by
      unfold collideP
      refine ⟨by linarith, by linarith, by linarith, by linarith⟩
    constructor
    · simp only [prey_wolf_loop]
      rw [if_pos hcol]
    · have hne3 : (t0 + 3 : ℚ) ≠ 0 := by linarith
      simp only [wolf_starve_step]
      rw [if_neg hne3, hmx,
        if_neg (show ¬t0 + 51 / 10 > t0 + 3 + (5 : ℚ) by
          simp only [gt_iff_lt, not_lt]; linarith)]

/-- Witness for C2 at the concrete times t0 = 10. -/
theorem C2_witness :
    (wolf_starve_step 7 ⟨kinAt ⟨0, 0, 0⟩, 120, 0, 5⟩ =
      some { (⟨kinAt ⟨0, 0, 0⟩, 120, 0, 5⟩ : WolfState) with hungerTime := 7 }) ∧
    (wolf_starve_step (10 + 49 / 10) ⟨kinAt ⟨0, 0, 0⟩, 120, 10, 5⟩ =
      some ⟨kinAt ⟨0, 0, 0⟩, 120, 10, 5⟩ ∧
     wolf_starve_step (10 + 51 / 10) ⟨kinAt ⟨0, 0, 0⟩, 120, 10, 5⟩ = none) ∧
    (prey_wolf_loop (kinAt ⟨0, 0, 0⟩).translation 60 60 60 60 (10 + 3)
        [⟨kinAt ⟨0, 0, 0⟩, 120, 10, 5⟩] =
      (true, [{ (⟨kinAt ⟨0, 0, 0⟩, 120, 10, 5⟩ : WolfState) with hungerTime := 10 + 3 }]) ∧
     wolf_starve_step (10 + 51 / 10)
        { (⟨kinAt ⟨0, 0, 0⟩, 120, 10, 5⟩ : WolfState) with hungerTime := 10 + 3 } =
      some { (⟨kinAt ⟨0, 0, 0⟩, 120, 10, 5⟩ : WolfState) with hungerTime := 10 + 3 }) :=
  ⟨C2_hunger_clock.1 7 ⟨kinAt ⟨0, 0, 0⟩, 120, 0, 5⟩ rfl (by norm_num),
   C2_hunger_clock.2.1 10 ⟨kinAt ⟨0, 0, 0⟩, 120, 10, 5⟩ (by norm_num) rfl rfl,
   C2_hunger_clock.2.2 10 ⟨kinAt ⟨0, 0, 0⟩, 120, 10, 5⟩ (by norm_num) rfl⟩

theorem hare_spawn_target_zero (fieldW fieldH speed rx ry : ℚ) (w : HareWorld)
    (hmax : w.maxNumber = 0) : hare_spawn fieldW fieldH speed rx ry w = .ok w := by
  simp only [hare_spawn]
  rw [if_neg]
  intro hc
  exact Nat.not_lt_zero _ (hmax ▸ hc)

theorem wolf_spawn_target_zero (fieldW fieldH speed rx ry : ℚ) (w : WolfWorld)
    (hmax : w.maxNumber = 0) : wolf_spawn fieldW fieldH speed rx ry w = .ok w := by
  simp only [wolf_spawn]
  rw [if_neg]
  intro hc
  exact Nat.not_lt_zero _ (hmax ▸ hc)

theorem deer_spawn_target_zero (fieldW fieldH speed : ℚ) (maxNumber : ℕ)
    (rx ry : ℚ) (rcount rid : ℕ) (offsets : List (ℚ × ℚ)) (w : DeerWorld)
    (hg : w.groupNumber = 0) :
    deer_spawn fieldW fieldH speed maxNumber rx ry rcount rid offsets w = .ok w := by
  simp only [deer_spawn]
  rw [if_neg]
  intro hc
  exact Nat.not_lt_zero _ (hg ▸ hc)

/-- C9: a species whose gating population target is configured as zero never
spawns an agent and never faults, over any number of ticks: the hare and wolf
spawn systems with max_number = 0, and the deer spawn system (whose group size
is drawn from 3..max_number only after the gate) with group_number = 0, all
leave the state unchanged and return no error. -/
theorem C9_spawn_target_zero :
    (∀ (fieldW fieldH speed : ℚ) (rng : ℕ → ℚ × ℚ) (n : ℕ) (w : HareWorld),
      w.maxNumber = 0 → hare_spawn_iter fieldW fieldH speed rng n w = .ok w) ∧
    (∀ (fieldW fieldH speed : ℚ) (rng : ℕ → ℚ × ℚ) (n : ℕ) (w : WolfWorld),
      w.maxNumber = 0 → wolf_spawn_iter fieldW fieldH speed rng n w = .ok w) ∧
    (∀ (fieldW fieldH speed : ℚ) (maxNumber : ℕ) (rng : ℕ → (ℚ × ℚ) × ℕ × ℕ)
      (offs : ℕ → List (ℚ × ℚ)) (n : ℕ) (w : DeerWorld),
      w.groupNumber = 0 →
      deer_spawn_iter fieldW fieldH speed maxNumber rng offs n w = .ok w) := by
  refine ⟨?_, ?_, ?_⟩
  · intro fieldW fieldH speed rng n w hmax
    induction n with
    | zero => rfl
    | succ n ih =>
      simp only [hare_spawn_iter,
        hare_spawn_target_zero fieldW fieldH speed _ _ w hmax, Except.bind]
      exact ih
  · intro fieldW fieldH speed rng n w hmax
    induction n with
    | zero => rfl
    | succ n ih =>
      simp only [wolf_spawn_iter,
        wolf_spawn_target_zero fieldW fieldH speed _ _ w hmax, Except.bind]
      exact ih
  · intro fieldW fieldH speed maxNumber rng offs n w hg
    induction n with
    | zero => rfl
    | succ n ih =>
      simp only [deer_spawn_iter,
        deer_spawn_target_zero fieldW fieldH speed maxNumber _ _ _ _ _ w hg, Except.bind]
      exact ih

/-- Witness for C9: three ticks of each spawn system on empty worlds with a
zero target. -/
theorem C9_witness :
    hare_spawn_iter 1280 720 120 (fun _ => (0, 0)) 3 ⟨0, 0, []⟩ =
      .ok (⟨0, 0, []⟩ : HareWorld) ∧
    wolf_spawn_iter 1280 720 140 (fun _ => (0, 0)) 3 ⟨0, 0, []⟩ =
      .ok (⟨0, 0, []⟩ : WolfWorld) ∧
    deer_spawn_iter 1280 720 100 8 (fun _ => ((0, 0), 4, 11)) (fun _ => []) 3
      ⟨[], 0, []⟩ = .ok (⟨[], 0, []⟩ : DeerWorld) :=
  ⟨C9_spawn_target_zero.1 1280 720 120 _ 3 ⟨0, 0, []⟩ rfl,
   C9_spawn_target_zero.2.1 1280 720 140 _ 3 ⟨0, 0, []⟩ rfl,
   C9_spawn_target_zero.2.2 1280 720 100 8 _ _ 3 ⟨[], 0, []⟩ rfl⟩

theorem foldl_skip {α β : Type} (f : α → β → α) (l1 l2 : List β) (b : β)
    (init : α) (hb : ∀ a, f a b = a) :
    (l1 ++ b :: l2).foldl f init = (l1 ++ l2).foldl f init := by
  rw [List.foldl_append, List.foldl_append, List.foldl_cons, hb]

theorem deer_alignment_accum_skip (self B : DeerState) (r : ℚ)
    (l1 l2 : List DeerState) (hgroup : B.groupId ≠ self.groupId) :
    deer_alignment_accum self r (l1 ++ B :: l2) =
      deer_alignment_accum self r (l1 ++ l2) := by
  unfold deer_alignment_accum
  apply foldl_skip
  intro a
  rw [if_neg]
  intro h
  exact hgroup h.1.symm

theorem deer_cohesion_accum_skip (self B : DeerState) (r : ℚ)
    (l1 l2 : List DeerState) (hgroup : B.groupId ≠ self.groupId) :
    deer_cohesion_accum self r (l1 ++ B :: l2) =
      deer_cohesion_accum self r (l1 ++ l2) := by
  unfold deer_cohesion_accum
  apply foldl_skip
  intro a
  rw [if_neg]
  intro h
  exact hgroup h.1.symm

theorem deer_separation_accum_skip (self B : DeerState) (r : ℚ)
    (l1 l2 : List DeerState) (hgroup : B.groupId ≠ self.groupId) :
    deer_separation_accum self r (l1 ++ B :: l2) =
      deer_separation_accum self r (l1 ++ l2) := by
  unfold deer_separation_accum
  apply foldl_skip
  intro a
  rw [if_neg]
  intro h
  exact hgroup h.1.symm

/-- C6: a deer B whose GroupID differs from that of deer A never contributes
to the alignment, cohesion or separation force of A, at any position in the
neighbor query and for any positions and velocities: removing B from the query
leaves all three per-deer updates unchanged. -/
theorem C6_flocking_group_isolation (d : FlockingData) (self B : DeerState)
    (l1 l2 : List DeerState) (hgroup : B.groupId ≠ self.groupId) :
    deer_alignment_apply d (l1 ++ B :: l2) self =
      deer_alignment_apply d (l1 ++ l2) self ∧
    deer_cohesion_apply d (l1 ++ B :: l2) self =
      deer_cohesion_apply d (l1 ++ l2) self ∧
    deer_separation_apply d (l1 ++ B :: l2) self =
      deer_separation_apply d (l1 ++ l2) self := by
  refine ⟨?_, ?_, ?_⟩
  · unfold deer_alignment_apply
    rw [deer_alignment_accum_skip self B d.perceptionRadius l1 l2 hgroup]
  · unfold deer_cohesion_apply
    rw [deer_cohesion_accum_skip self B d.perceptionRadius l1 l2 hgroup]
  · unfold deer_separation_apply
    rw [deer_separation_accum_skip self B d.perceptionRadius l1 l2 hgroup]

/-- Witness for C6: a cross-group neighbor right next to the agent changes
nothing in any of the three flocking updates. -/
theorem C6_witness :
    (1 : ℕ) ≠ (0 : ℕ) ∧
    (deer_alignment_apply ⟨50, 3⟩ [⟨kinAt ⟨1, 0, 0⟩, 1, 100⟩]
        ⟨kinAt ⟨0, 0, 0⟩, 0, 100⟩ =
      deer_alignment_apply ⟨50, 3⟩ [] ⟨kinAt ⟨0, 0, 0⟩, 0, 100⟩ ∧
     deer_cohesion_apply ⟨50, 3⟩ [⟨kinAt ⟨1, 0, 0⟩, 1, 100⟩]
        ⟨kinAt ⟨0, 0, 0⟩, 0, 100⟩ =
      deer_cohesion_apply ⟨50, 3⟩ [] ⟨kinAt ⟨0, 0, 0⟩, 0, 100⟩ ∧
     deer_separation_apply ⟨50, 3⟩ [⟨kinAt ⟨1, 0, 0⟩, 1, 100⟩]
        ⟨kinAt ⟨0, 0, 0⟩, 0, 100⟩ =
      deer_separation_apply ⟨50, 3⟩ [] ⟨kinAt ⟨0, 0, 0⟩, 0, 100⟩) :=
  ⟨by decide,
   C6_flocking_group_isolation ⟨50, 3⟩ ⟨kinAt ⟨0, 0, 0⟩, 0, 100⟩
     ⟨kinAt ⟨1, 0, 0⟩, 1, 100⟩ [] [] (by decide)⟩

theorem hare_flee_agent_cons (base mft wt now : ℚ) (a : Vec3) (l : List Vec3)
    (h : HareState) :
    hare_flee_agent base mft wt now (a :: l) h =
      hare_flee_agent base mft wt now l (hare_flee_step base mft wt now h a) := rfl

theorem hare_flee_step_translation (base mft wt now : ℚ) (h : HareState)
    (t : Vec3) :
    (hare_flee_step base mft wt now h t).kin.translation = h.kin.translation := by
  simp only [hare_flee_step]
  split_ifs <;> rfl

theorem hare_flee_step_self (base mft wt now : ℚ) (h : HareState) (t : Vec3)
    (heq : t = h.kin.translation) : hare_flee_step base mft wt now h t = h := by
  simp only [hare_flee_step]
  rw [if_pos heq]

theorem hare_flee_step_trigger (base mft wt now : ℚ) (h : HareState) (t : Vec3)
    (hne : t ≠ h.kin.translation)
    (hnear : distSq h.kin.translation t < 100 * 100) :
    (hare_flee_step base mft wt now h t).speed = base + 50 ∧
    (hare_flee_step base mft wt now h t).fleeTime = now := by
  simp only [hare_flee_step]
  rw [if_neg hne, if_pos hnear]
  exact ⟨rfl, rfl⟩

theorem hare_flee_step_keeps_boost (base mft wt now : ℚ) (hmft : 0 < mft)
    (h : HareState) (t : Vec3) (hs : h.speed = base + 50)
    (hf : h.fleeTime = now) :
    (hare_flee_step base mft wt now h t).speed = base + 50 ∧
    (hare_flee_step base mft wt now h t).fleeTime = now := by
  by_cases hc1 : t = h.kin.translation
  · rw [hare_flee_step_self base mft wt now h t hc1]
    exact ⟨hs, hf⟩
  · have hreset : ¬now ≥ h.fleeTime + mft := by
      rw [hf]
      intro hge
      linarith
    simp only [hare_flee_step]
    rw [if_neg hc1, if_neg hreset]
    by_cases hd : distSq h.kin.translation t < 100 * 100
    · rw [if_pos hd]
      exact ⟨rfl, rfl⟩
    · rw [if_neg hd]
      exact ⟨hs, hf⟩

theorem hare_flee_agent_keeps_boost (base mft wt now : ℚ) (hmft : 0 < mft)
    (l : List Vec3) (h : HareState) (hs : h.speed = base + 50)
    (hf : h.fleeTime = now) :
    (hare_flee_agent base mft wt now l h).speed = base + 50 ∧
    (hare_flee_agent base mft wt now l h).fleeTime = now := by
  induction l generalizing h with
  | nil => exact ⟨hs, hf⟩
  | cons a l ih =>
    rw [hare_flee_agent_cons]
    have hstep := hare_flee_step_keeps_boost base mft wt now hmft h a hs hf
    exact ih _ hstep.1 hstep.2

theorem hare_flee_agent_trigger (base mft wt now : ℚ) (hmft : 0 < mft)
    (threats : List Vec3) (h : HareState)
    (hex : ∃ t ∈ threats, t ≠ h.kin.translation ∧
      distSq h.kin.translation t < 100 * 100) :
    (hare_flee_agent base mft wt now threats h).speed = base + 50 ∧
    (hare_flee_agent base mft wt now threats h).fleeTime = now := by
  induction threats generalizing h with
  | nil =>
    rcases hex with ⟨t, ht, _⟩
    cases ht
  | cons a l ih =>
    rw [hare_flee_agent_cons]
    rcases hex with ⟨t, ht, hprop⟩
    rcases List.mem_cons.mp ht with rfl | hmem
    · have hstep := hare_flee_step_trigger base mft wt now h t hprop.1 hprop.2
      exact hare_flee_agent_keeps_boost base mft wt now hmft l _ hstep.1 hstep.2
    · have htr := hare_flee_step_translation base mft wt now h a
      exact ih _ ⟨t, hmem, by rw [htr]; exact hprop.1, by rw [htr]; exact hprop.2⟩

theorem hare_flee_step_keeps_base (base mft wt now : ℚ) (h : HareState)
    (t : Vec3) (hs : h.speed = base)
    (hfar : t ≠ h.kin.translation → ¬ distSq h.kin.translation t < 100 * 100) :
    (hare_flee_step base mft wt now h t).speed = base := by
  by_cases hc1 : t = h.kin.translation
  · rw [hare_flee_step_self base mft wt now h t hc1]
    exact hs
  · simp only [hare_flee_step]
    rw [if_neg hc1, if_neg (hfar hc1)]
    by_cases hreset : now ≥ h.fleeTime + mft
    · rw [if_pos hreset]
    · rw [if_neg hreset]
      exact hs

theorem hare_flee_agent_keeps_base (base mft wt now : ℚ) (l : List Vec3)
    (h : HareState) (hs : h.speed = base)
    (hfar : ∀ t ∈ l, t ≠ h.kin.translation →
      ¬ distSq h.kin.translation t < 100 * 100) :
    (hare_flee_agent base mft wt now l h).speed = base := by
  induction l generalizing h with
  | nil => exact hs
  | cons a l ih =>
    rw [hare_flee_agent_cons]
    have htr := hare_flee_step_translation base mft wt now h a
    apply ih
    · exact hare_flee_step_keeps_base base mft wt now h a hs
        (hfar a (List.mem_cons_self a l))
    · intro t ht
      rw [htr]
      exact hfar t (List.mem_cons_of_mem a ht)

theorem hare_flee_agent_decay (base mft wt now : ℚ) (threats : List Vec3)
    (h : HareState)
    (hfar : ∀ t ∈ threats, t ≠ h.kin.translation →
      ¬ distSq h.kin.translation t < 100 * 100)
    (htime : now ≥ h.fleeTime + mft)
    (hex : ∃ t ∈ threats, t ≠ h.kin.translation) :
    (hare_flee_agent base mft wt now threats h).speed = base := by
  induction threats generalizing h with
  | nil =>
    rcases hex with ⟨t, ht, _⟩
    cases ht
  | cons a l ih =>
    rw [hare_flee_agent_cons]
    by_cases ha : a = h.kin.translation
    · rw [hare_flee_step_self base mft wt now h a ha]
      rcases hex with ⟨t, ht, htne⟩
      rcases List.mem_cons.mp ht with rfl | hmem
      · exact absurd ha htne
      · exact ih h (fun t ht' => hfar t (List.mem_cons_of_mem a ht')) htime
          ⟨t, hmem, htne⟩
    · have hstep : hare_flee_step base mft wt now h a =
          { h with fleeTime := 0, speed := base } := by
        simp only [hare_flee_step]
        rw [if_neg ha, if_neg (hfar a (List.mem_cons_self a l) ha), if_pos htime]
      rw [hstep]
      apply hare_flee_agent_keeps_base base mft wt now l _ rfl
      intro t ht
      exact hfar t (List.mem_cons_of_mem a ht)

/-- C5: whenever a Threat-tagged agent other than the hare itself lies within
100 units, one evaluation of the threat loop leaves the hare with
MovementSpeed base + 50 and the trigger time recorded as now (positive
max_flee_time); and when the loop is evaluated (some other threat exists) at a
time at least max_flee_time past the last recorded trigger with no threat in
range, the speed returns to the configured baseline. -/
theorem C5_flee_speed_boost (base mft wt now : ℚ) (threats : List Vec3)
    (h : HareState) :
    (0 < mft →
      (∃ t ∈ threats, t ≠ h.kin.translation ∧
        distSq h.kin.translation t < 100 * 100) →
      (hare_flee_agent base mft wt now threats h).speed = base + 50 ∧
      (hare_flee_agent base mft wt now threats h).fleeTime = now) ∧
    ((∀ t ∈ threats, t ≠ h.kin.translation →
        ¬ distSq h.kin.translation t < 100 * 100) →
      now ≥ h.fleeTime + mft → (∃ t ∈ threats, t ≠ h.kin.translation) →
      (hare_flee_agent base mft wt now threats h).speed = base) :=
  ⟨fun hmft hex => hare_flee_agent_trigger base mft wt now hmft threats h hex,
   fun hfar htime hex => hare_flee_agent_decay base mft wt now threats h hfar htime hex⟩

/-- Witness for C5: a threat 50 units away boosts the speed from 120 to 170
and records the time; a lone threat 500 units away at a time past
max_flee_time restores the baseline 120. -/
theorem C5_witness :
    ((hare_flee_agent 120 2 3 7 [⟨50, 0, 0⟩] ⟨kinAt ⟨0, 0, 0⟩, 120, 0⟩).speed =
        120 + 50 ∧
     (hare_flee_agent 120 2 3 7 [⟨50, 0, 0⟩] ⟨kinAt ⟨0, 0, 0⟩, 120, 0⟩).fleeTime =
        7) ∧
    (hare_flee_agent 120 2 3 7 [⟨500, 0, 0⟩] ⟨kinAt ⟨0, 0, 0⟩, 120, 0⟩).speed =
        120 :=
  ⟨(C5_flee_speed_boost 120 2 3 7 [⟨50, 0, 0⟩] ⟨kinAt ⟨0, 0, 0⟩, 120, 0⟩).1
      (by norm_num)
      ⟨⟨50, 0, 0⟩, List.mem_singleton.mpr rfl,
        fun heq => by have := congrArg Vec3.x heq; norm_num [kinAt] at this,
        by norm_num [distSq, kinAt]⟩,
   (C5_flee_speed_boost 120 2 3 7 [⟨500, 0, 0⟩] ⟨kinAt ⟨0, 0, 0⟩, 120, 0⟩).2
      (by
        intro t ht hne
        rw [List.mem_singleton.mp ht]
        norm_num [distSq, kinAt])
      (by norm_num [kinAt])
      ⟨⟨500, 0, 0⟩, List.mem_singleton.mpr rfl,
        fun heq => by have := congrArg Vec3.x heq; norm_num [kinAt] at this⟩⟩

theorem despawn_mark_self (l : List ℕ) (e : ℕ) : e ∈ despawn_mark l e := by
  unfold despawn_mark
  split_ifs with h
  · exact h
  · exact List.mem_append_right _ (List.mem_singleton.mpr rfl)

theorem despawn_mark_mono (l : List ℕ) (e x : ℕ) (h : e ∈ l) :
    e ∈ despawn_mark l x := by
  unfold despawn_mark
  split_ifs
  · exact h
  · exact List.mem_append_left _ h

theorem despawn_mark_mem_eq (l : List ℕ) (e : ℕ) (h : e ∈ l) :
    despawn_mark l e = l := if_pos h

theorem prey_wolf_loop_first_hit (ppos : Vec3) (pw ph ww wh now : ℚ) :
    ∀ (wolves : List WolfState) (i : ℕ) (hi : i < wolves.length),
    (∀ j (hj : j < wolves.length), j < i →
      ¬ collideP ppos pw ph ((wolves.get ⟨j, hj⟩).kin.translation) ww wh) →
    collideP ppos pw ph ((wolves.get ⟨i, hi⟩).kin.translation) ww wh →
    prey_wolf_loop ppos pw ph ww wh now wolves =
      (true, wolves.set i { wolves.get ⟨i, hi⟩ with hungerTime := now })
  | [], i, hi, _, _ => absurd hi (Nat.not_lt_zero i)
  | w :: ws, 0, hi, _, hhit => by
    simp only [List.get] at hhit
    simp only [prey_wolf_loop, List.get, List.set]
    rw [if_pos hhit]
  | w :: ws, i + 1, hi, hbefore, hhit => by
    have hw : ¬ collideP ppos pw ph w.kin.translation ww wh := by
      have := hbefore 0 (Nat.succ_pos ws.length) (Nat.succ_pos i)
      simpa using this
    have hi' : i < ws.length := Nat.lt_of_succ_lt_succ hi
    have hbefore' : ∀ j (hj : j < ws.length), j < i →
        ¬ collideP ppos pw ph ((ws.get ⟨j, hj⟩).kin.translation) ww wh := by
      intro j hj hji
      have := hbefore (j + 1) (Nat.succ_lt_succ hj) (Nat.succ_lt_succ hji)
      simpa using this
    have hhit' : collideP ppos pw ph ((ws.get ⟨i, hi'⟩).kin.translation) ww wh := by
      simpa using hhit
    have ih := prey_wolf_loop_first_hit ppos pw ph ww wh now ws i hi' hbefore' hhit'
    simp only [prey_wolf_loop, List.get, List.set]
    rw [if_neg hw, ih]

theorem prey_bullet_loop_fst_self (ppos : Vec3) (pw ph bw bh : ℚ) (preyId : ℕ) :
    ∀ (bullets : List Bullet) (r2 : List ℕ),
    (prey_bullet_loop ppos pw ph bw bh preyId bullets [preyId] r2).1 = [preyId]
  | [], _ => rfl
  | b :: bs, r2 => by
    simp only [prey_bullet_loop]
    split_ifs with hc
    · rw [despawn_mark_mem_eq [preyId] preyId (List.mem_singleton.mpr rfl)]
      exact prey_bullet_loop_fst_self ppos pw ph bw bh preyId bs _
    · exact prey_bullet_loop_fst_self ppos pw ph bw bh preyId bs r2

theorem prey_bullet_loop_snd_mono (ppos : Vec3) (pw ph bw bh : ℚ)
    (preyId e : ℕ) :
    ∀ (bullets : List Bullet) (r1 r2 : List ℕ), e ∈ r2 →
    e ∈ (prey_bullet_loop ppos pw ph bw bh preyId bullets r1 r2).2
  | [], _, _, h => h
  | b :: bs, r1, r2, h => by
    simp only [prey_bullet_loop]
    split_ifs with hc
    · exact prey_bullet_loop_snd_mono ppos pw ph bw bh preyId e bs _ _
        (despawn_mark_mono r2 e b.id h)
    · exact prey_bullet_loop_snd_mono ppos pw ph bw bh preyId e bs r1 r2 h

theorem prey_bullet_loop_bullet_removed (ppos : Vec3) (pw ph bw bh : ℚ)
    (preyId : ℕ) (b : Bullet)
    (hbc : collideP ppos pw ph b.translation bw bh) :
    ∀ (bullets : List Bullet), b ∈ bullets → ∀ (r1 r2 : List ℕ),
    b.id ∈ (prey_bullet_loop ppos pw ph bw bh preyId bullets r1 r2).2
  | [], hb, _, _ => absurd hb (List.not_mem_nil b)
  | a :: bs, hb, r1, r2 => by
    rcases List.mem_cons.mp hb with rfl | hmem
    · simp only [prey_bullet_loop]
      rw [if_pos hbc]
      exact prey_bullet_loop_snd_mono ppos pw ph bw bh preyId b.id bs _ _
        (despawn_mark_self r2 b.id)
    · simp only [prey_bullet_loop]
      split_ifs with hc
      · exact prey_bullet_loop_bullet_removed ppos pw ph bw bh preyId b hbc bs hmem _ _
      · exact prey_bullet_loop_bullet_removed ppos pw ph bw bh preyId b hbc bs hmem r1 r2

/-- C3: for one prey agent in one tick, with the first overlapping predator at
position i of the predator query and some overlapping projectile b: the
predator loop removes the prey and feeds exactly predator i, leaving every
later predator untouched (early exit); the projectile loop still runs for the
same prey and also removes both the prey and the projectile; the double
removal is idempotent — the prey appears exactly once in the removal list. -/
theorem C3_double_despawn (pw ph ww wh bw bh now : ℚ) (preyId : ℕ)
    (ppos : Vec3) (wolves : List WolfState) (i : ℕ) (hi : i < wolves.length)
    (bullets : List Bullet) (b : Bullet)
    (hbefore : ∀ j (hj : j < wolves.length), j < i →
      ¬ collideP ppos pw ph ((wolves.get ⟨j, hj⟩).kin.translation) ww wh)
    (hhit : collideP ppos pw ph ((wolves.get ⟨i, hi⟩).kin.translation) ww wh)
    (hb : b ∈ bullets) (hbc : collideP ppos pw ph b.translation bw bh) :
    (prey_die_step pw ph ww wh bw bh now (preyId, ppos) wolves bullets [] []).1 =
      [preyId] ∧
    (prey_die_step pw ph ww wh bw bh now (preyId, ppos) wolves bullets [] []).2.1 =
      wolves.set i { wolves.get ⟨i, hi⟩ with hungerTime := now } ∧
    b.id ∈ (prey_die_step pw ph ww wh bw bh now (preyId, ppos) wolves
      bullets [] []).2.2 := by
  have hwl := prey_wolf_loop_first_hit ppos pw ph ww wh now wolves i hi hbefore hhit
  have hmark : despawn_mark [] preyId = [preyId] := by
    simp [despawn_mark]
  refine ⟨?_, ?_, ?_⟩
  · simp only [prey_die_step, hwl, if_pos, hmark, ite_true]
    exact prey_bullet_loop_fst_self ppos pw ph bw bh preyId bullets []
  · simp only [prey_die_step, hwl]
  · simp only [prey_die_step]
    exact prey_bullet_loop_bullet_removed ppos pw ph bw bh preyId b hbc bullets hb _ _

/-- Concrete predator list for the C3 instance: the second and third wolves
overlap the prey at the origin, the first does not. -/
noncomputable def wolvesC : List WolfState :=
  [⟨kinAt ⟨1000, 0, 0⟩, 140, 0, 5⟩, ⟨kinAt ⟨0, 0, 0⟩, 140, 0, 5⟩,
   ⟨kinAt ⟨10, 0, 0⟩, 140, 0, 5⟩]

/-- Concrete projectile list for the C3 instance. -/
def bulletsC : List Bullet := [⟨7, ⟨5, 5, 0⟩⟩]

/-- Witness for C3: the prey at the origin is removed exactly once even though
wolf 1 eats it and bullet 7 hits it in the same tick; wolf 1 gets the feeding
timestamp while the also-overlapping wolf 2 stays untouched. -/
theorem C3_witness :
    (prey_die_step 60 60 60 60 24 24 3 (5, ⟨0, 0, 0⟩) wolvesC bulletsC [] []).1 =
      [5] ∧
    (prey_die_step 60 60 60 60 24 24 3 (5, ⟨0, 0, 0⟩) wolvesC bulletsC [] []).2.1 =
      [⟨kinAt ⟨1000, 0, 0⟩, 140, 0, 5⟩, ⟨kinAt ⟨0, 0, 0⟩, 140, 3, 5⟩,
       ⟨kinAt ⟨10, 0, 0⟩, 140, 0, 5⟩] ∧
    7 ∈ (prey_die_step 60 60 60 60 24 24 3 (5, ⟨0, 0, 0⟩) wolvesC bulletsC [] []).2.2 := by
  have h := C3_double_despawn 60 60 60 60 24 24 3 5 ⟨0, 0, 0⟩ wolvesC 1
    (by norm_num [wolvesC]) bulletsC ⟨7, ⟨5, 5, 0⟩⟩
    (by
      intro j hj hji
      interval_cases j
      simp only [wolvesC, List.get, kinAt]
      norm_num [collideP])
    (by
      simp only [wolvesC, List.get, kinAt]
      norm_num [collideP])
    (List.mem_singleton.mpr rfl)
    (by norm_num [collideP])
  refine ⟨h.1, h.2.1.trans ?_, h.2.2⟩
  rfl

/-- The hare state produced by one in-range threat evaluation: speed boosted
to base + 50, trigger time recorded, and the weighted flee force away from the
threat added to the accumulator. -/
noncomputable def hare_flee_boosted (base wt now : ℚ) (bpos : Vec3)
    (h : HareState) : HareState :=
  let f := h.kin.force + (wt : ℝ) •
    flee h.kin.translation.toR h.kin.velocity.toR bpos.toR
      (((base + 50) * TIME_STEP : ℚ) : ℝ)
  { h with speed := base + 50, fleeTime := now, kin := { h.kin with force := f } }

/-- C10: every spawned hare carries both the Threat and the Prey tags (the
player carries both, wolves only Threat, deer only Prey); a hare bundle in the
agent soup therefore appears in the threat query of hare_flee; and processing
another hare at a distinct position within 100 units boosts the speed to
base + 50, records the trigger time, and adds the weighted flee force away
from that hare — hares flee their own species. -/
theorem C10_hares_flee_hares :
    (∀ x y s : ℚ, (hare_spawn_bundle x y s).threat = true ∧
      (hare_spawn_bundle x y s).prey = true) ∧
    (∀ (t : Vec3) (s : ℚ), (player_spawn_bundle t s).threat = true ∧
      (player_spawn_bundle t s).prey = true) ∧
    (∀ x y s : ℚ, (wolf_spawn_bundle x y s).threat = true ∧
      (wolf_spawn_bundle x y s).prey = false) ∧
    (∀ x y s : ℚ, (deer_spawn_bundle x y s).threat = false ∧
      (deer_spawn_bundle x y s).prey = true) ∧
    (∀ (agents : List SpawnBundle) (x y s : ℚ),
      hare_spawn_bundle x y s ∈ agents →
      (hare_spawn_bundle x y s).translation ∈ threat_positions agents) ∧
    (∀ (base mft wt now : ℚ) (h : HareState) (bpos : Vec3),
      bpos ≠ h.kin.translation → distSq h.kin.translation bpos < 100 * 100 →
      hare_flee_agent base mft wt now [bpos] h =
        hare_flee_boosted base wt now bpos h) := by
  refine ⟨fun x y s => ⟨rfl, rfl⟩, fun t s => ⟨rfl, rfl⟩,
    fun x y s => ⟨rfl, rfl⟩, fun x y s => ⟨rfl, rfl⟩, ?_, ?_⟩
  · intro agents x y s hmem
    exact List.mem_map_of_mem _ (List.mem_filter.mpr ⟨hmem, rfl⟩)
  · intro base mft wt now h bpos hne hnear
    show hare_flee_step base mft wt now h bpos = hare_flee_boosted base wt now bpos h
    simp only [hare_flee_step, hare_flee_boosted]
    rw [if_neg hne]
    by_cases hreset : now ≥ h.fleeTime + mft
    · rw [if_pos hreset, if_pos hnear]
    · rw [if_neg hreset, if_pos hnear]

/-- Witness for C10: a second hare 50 units away triggers the flee reaction of
the first. -/
theorem C10_witness :
    ((hare_spawn_bundle 1 2 120).threat = true ∧
     (hare_spawn_bundle 1 2 120).prey = true) ∧
    (hare_spawn_bundle 1 2 120).translation ∈
      threat_positions [wolf_spawn_bundle 9 9 140, hare_spawn_bundle 1 2 120] ∧
    hare_flee_agent 120 2 3 7 [⟨50, 0, 0⟩] ⟨kinAt ⟨0, 0, 0⟩, 120, 0⟩ =
      hare_flee_boosted 120 3 7 ⟨50, 0, 0⟩ ⟨kinAt ⟨0, 0, 0⟩, 120, 0⟩ :=
  ⟨C10_hares_flee_hares.1 1 2 120,
   C10_hares_flee_hares.2.2.2.2.1 [wolf_spawn_bundle 9 9 140, hare_spawn_bundle 1 2 120]
     1 2 120 (List.mem_cons_of_mem _ (List.mem_singleton.mpr rfl)),
   C10_hares_flee_hares.2.2.2.2.2 120 2 3 7 ⟨kinAt ⟨0, 0, 0⟩, 120, 0⟩ ⟨50, 0, 0⟩
     (fun heq => by have := congrArg Vec3.x heq; norm_num [kinAt] at this)
     (by norm_num [distSq, kinAt])⟩

/-- C4 (amended): while the gating count of a species (active count, or group
count for deer) is below its configured target, every behavior system of that
species returns the world unchanged — and the move/integration system is
likewise gated, returning every agent unchanged, so agents existing in this
phase do not move at all. -/
theorem C4_population_gate_inert :
    (∀ (w : HareWorld), w.count < w.maxNumber →
      ∀ (d : WanderData) (disps : List ℚ) (base mft wt now wt2 : ℚ)
        (threats : List Vec3) (walls : List WallData),
      hare_move w = w.hares.map (fun h => ⟨h.kin.toR, h.speed, h.fleeTime⟩) ∧
      hare_wander d disps w = w ∧
      hare_flee base mft wt now threats w = w ∧
      hare_evade_walls wt2 walls w = w) ∧
    (∀ (w : WolfWorld), w.count < w.maxNumber →
      ∀ (d : WanderData) (disps : List ℚ) (wt now wt2 : ℚ)
        (preys : List (Vec3 × Vec3)) (walls : List WallData),
      wolf_move w = w.wolves.map
        (fun wf => ⟨wf.kin.toR, wf.speed, wf.hungerTime, wf.maxHungerTime⟩) ∧
      wolf_wander d disps w = w ∧
      wolf_pursue wt preys w = w ∧
      wolf_evade_walls wt2 walls w = w ∧
      wolf_starve now w = w) ∧
    (∀ (w : DeerWorld), w.groups.length < w.groupNumber →
      ∀ (d : WanderData) (disps : List (List ℚ)) (fd : FlockingData)
        (wt wt2 wt3 : ℚ) (threats : List Vec3) (wolves : List (Vec3 × Vec3))
        (walls : List WallData),
      deer_move w = w.deers.map (fun dr => ⟨dr.kin.toR, dr.groupId, dr.speed⟩) ∧
      deer_wander d disps w = w ∧
      deer_flee wt threats w = w ∧
      deer_evade wt2 wolves w = w ∧
      deer_alignment fd w = w ∧
      deer_cohesion fd w = w ∧
      deer_separation fd w = w ∧
      deer_evade_walls wt3 walls w = w) := by
  refine ⟨?_, ?_, ?_⟩
  · intro w hlt d disps base mft wt now wt2 threats walls
    refine ⟨?_, ?_, ?_, ?_⟩
    · simp only [hare_move, if_pos hlt]
    · simp only [hare_wander, if_pos hlt]
    · simp only [hare_flee, if_pos hlt]
    · simp only [hare_evade_walls, if_pos hlt]
  · intro w hlt d disps wt now wt2 preys walls
    refine ⟨?_, ?_, ?_, ?_, ?_⟩
    · simp only [wolf_move, if_pos hlt]
    · simp only [wolf_wander, if_pos hlt]
    · simp only [wolf_pursue, if_pos hlt]
    · simp only [wolf_evade_walls, if_pos hlt]
    · simp only [wolf_starve, if_pos hlt]
  · intro w hlt d disps fd wt wt2 wt3 threats wolves walls
    refine ⟨?_, ?_, ?_, ?_, ?_, ?_, ?_, ?_⟩
    · simp only [deer_move, if_pos hlt]
    · simp only [deer_wander, if_pos hlt]
    · simp only [deer_flee, if_pos hlt]
    · simp only [deer_evade, if_pos hlt]
    · simp only [deer_alignment, if_pos hlt]
    · simp only [deer_cohesion, if_pos hlt]
    · simp only [deer_separation, if_pos hlt]
    · simp only [deer_evade_walls, if_pos hlt]

/-- A concrete hare used by the closed instances: at the origin with the spawn
velocity (0, -2, 0) and speed 120. -/
noncomputable def hareA : HareState := ⟨kinAt ⟨0, 0, 0⟩, 120, 0⟩

/-- C4 counterexample: with the population below target (count 0 of 1), the
move system returns the existing hare unchanged — yet integration, had it run,
would have advanced the position by the velocity.  Movement does not keep
running during the spawn phase, contrary to the claim. -/
theorem C4_counterexample :
    hare_move ⟨0, 1, [hareA]⟩ =
      [⟨hareA.kin.toR, hareA.speed, hareA.fleeTime⟩] ∧
    (integrate hareA.speed hareA.kin).translation ≠ hareA.kin.toR.translation := by
  constructor
  · simp only [hare_move]
    rw [if_pos (show (0 : ℕ) < 1 by norm_num)]
    rfl
  · have hvel : hareA.kin.velocity.toR +
        (hareA.kin.acceleration + hareA.kin.force) = Vec3R.mk 0 (-2) 0 := by
      simp only [hareA, kinAt, Vec3.toR, vec3R_add_def, vec3R_zero_def, Vec3R.mk.injEq]
      norm_num
    have hlim : limit (Vec3R.mk 0 (-2) 0)
        ((hareA.speed : ℝ) * ((TIME_STEP : ℚ) : ℝ)) = Vec3R.mk 0 (-2) 0 := by
      unfold limit
      rw [if_neg]
      simp only [magSqR, hareA, TIME_STEP, gt_iff_lt, not_lt]
      push_cast
      norm_num
    intro heq
    simp only [integrate] at heq
    rw [hvel, hlim] at heq
    have hy := congrArg Vec3R.y heq
    simp only [hareA, kinAt, Vec3.toR, vec3R_add_def, AgentK.toR] at hy
    norm_num at hy

/-- Fixed wander configuration for the C4 instance. -/
def dWander : WanderData := ⟨1, 1, 25, 1, 80⟩

/-- Witness for C4 (amended): with the population below target, every hare,
wolf and deer system leaves its world unchanged. -/
theorem C4_witness :
    (hare_move ⟨0, 1, []⟩ = [] ∧
     hare_wander dWander [] ⟨0, 1, []⟩ = ⟨0, 1, []⟩ ∧
     hare_flee 120 2 3 7 [] ⟨0, 1, []⟩ = ⟨0, 1, []⟩ ∧
     hare_evade_walls 3 [] ⟨0, 1, []⟩ = ⟨0, 1, []⟩) ∧
    (wolf_move ⟨0, 1, []⟩ = [] ∧
     wolf_wander dWander [] ⟨0, 1, []⟩ = ⟨0, 1, []⟩ ∧
     wolf_pursue 2 [] ⟨0, 1, []⟩ = ⟨0, 1, []⟩ ∧
     wolf_evade_walls 3 [] ⟨0, 1, []⟩ = ⟨0, 1, []⟩ ∧
     wolf_starve 7 ⟨0, 1, []⟩ = ⟨0, 1, []⟩) ∧
    (deer_move ⟨[], 1, []⟩ = [] ∧
     deer_wander dWander [] ⟨[], 1, []⟩ = ⟨[], 1, []⟩ ∧
     deer_flee 2 [] ⟨[], 1, []⟩ = ⟨[], 1, []⟩ ∧
     deer_evade 2 [] ⟨[], 1, []⟩ = ⟨[], 1, []⟩ ∧
     deer_alignment ⟨50, 3⟩ ⟨[], 1, []⟩ = ⟨[], 1, []⟩ ∧
     deer_cohesion ⟨50, 3⟩ ⟨[], 1, []⟩ = ⟨[], 1, []⟩ ∧
     deer_separation ⟨50, 3⟩ ⟨[], 1, []⟩ = ⟨[], 1, []⟩ ∧
     deer_evade_walls 3 [] ⟨[], 1, []⟩ = ⟨[], 1, []⟩) :=
  ⟨C4_population_gate_inert.1 ⟨0, 1, []⟩ (by norm_num) dWander [] 120 2 3 7 3 [] [],
   C4_population_gate_inert.2.1 ⟨0, 1, []⟩ (by norm_num) dWander [] 2 7 3 [] [],
   C4_population_gate_inert.2.2 ⟨[], 1, []⟩ (by norm_num) dWander [] ⟨50, 3⟩
     2 2 3 [] [] []⟩
